import Mathlib

/-!
Verification development for the multi-agent task orchestration and
real-time event distribution core of the voice-automation samples.

Part 1 embeds the frontend WebSocket client
(frontend/src/lib/websocket.ts), the useAPI hook
(frontend/src/hooks/useAPI.ts) and the client-tool boundary of
ChatKitPanel (frontend/src/components/ChatKitPanel.tsx) as pure
state-passing functions.

Part 2 models the Task Store and the Event Bus / Broadcaster. Their
implementation is not part of the source tree, only the specification
describes them, so those definitions are modelled from the spec and are
marked as such in their doc comments.
-/

namespace VoiceAutomation

/-- Record shape delivered over the live event channel, from
websocket.ts: event, data, timestamp.  The untyped data object is
modelled as a list of string key/value pairs. -/
structure WebSocketMessage where
  event : String
  data : List (String × String)
  timestamp : Nat
deriving DecidableEq, Repr

/-- A message handler; a handler that throws is modelled by the error
branch carrying the thrown value rendered as a string. -/
def MessageHandler : Type := WebSocketMessage → Except String Unit

/-- Numeric readyState constants of the browser WebSocket. -/
def wsCONNECTING : Nat := 0

/-- Numeric readyState OPEN constant of the browser WebSocket. -/
def wsOPEN : Nat := 1

/-- State of a WebSocketClient instance: the underlying socket is either
null (none) or carries its readyState; handlers is the event-name keyed
handler registry; reconnectAttempts and isConnecting as in the class. -/
structure WSClientState where
  ws : Option Nat
  handlers : List (String × List MessageHandler)
  reconnectAttempts : Nat
  isConnecting : Bool

/-- Constant from websocket.ts: maxReconnectAttempts = 5. -/
def maxReconnectAttempts : Nat := 5

/-- Constant from websocket.ts: reconnectDelay = 1000 (ms). -/
def reconnectDelay : Nat := 1000

/-- Handler lookup: this.handlers.get(event), empty when absent. -/
def lookupHandlers (hs : List (String × List MessageHandler)) (ev : String) :
    List MessageHandler :=
  match hs.find? (fun p => p.1 == ev) with
  | some p => p.2
  | none => []

/-- Invoke each handler in order inside its own try/catch: a throwing
handler contributes its error outcome and the loop continues with the
next handler (websocket.ts handleMessage forEach body). -/
def invokeEach (hs : List MessageHandler) (m : WebSocketMessage) :
    List (Except String Unit) :=
  match hs with
  | [] => []
  | h :: rest =>
    match h m with
    | Except.ok u => Except.ok u :: invokeEach rest m
    | Except.error e => Except.error e :: invokeEach rest m

/-- handleMessage from websocket.ts: run the event-specific handlers,
then the wildcard handlers, each individually guarded by try/catch; the
client state is returned unchanged alongside the outcome of every
handler invocation. -/
def handleMessage (st : WSClientState) (m : WebSocketMessage) :
    WSClientState × List (Except String Unit) :=
  let eventResults := invokeEach (lookupHandlers st.handlers m.event) m
  let wildcardResults := invokeEach (lookupHandlers st.handlers "*") m
  (st, eventResults ++ wildcardResults)

/-- Result of a connect() call: either an immediately resolved promise
with no new socket constructed, or a pending promise after constructing
a new WebSocket. -/
inductive ConnectResult where
  | resolvedNoNew
  | pendingNew
deriving DecidableEq, Repr

/-- connect() from websocket.ts: if the socket is already OPEN or a
connection attempt is in progress, return a resolved promise without
constructing a WebSocket; otherwise construct one and mark
isConnecting. -/
def connect (st : WSClientState) : WSClientState × ConnectResult :=
  if st.ws = some wsOPEN ∨ st.isConnecting = true then
    (st, ConnectResult.resolvedNoNew)
  else
    ({ st with ws := some wsCONNECTING, isConnecting := true },
     ConnectResult.pendingNew)

/-- Outgoing frames produced by the client. -/
inductive OutMessage where
  | subscribeMsg (events : List String)
  | pingMsg
  | rawMsg (body : String)
deriving DecidableEq, Repr

/-- send() from websocket.ts: transmit only when readyState is OPEN;
otherwise emit a console warning, transmit nothing, buffer nothing and
leave the state unchanged.  Second component: transmitted frames; third:
warnings written to the console. -/
def send (st : WSClientState) (m : OutMessage) :
    WSClientState × List OutMessage × List String :=
  if st.ws = some wsOPEN then (st, [m], [])
  else (st, [], ["[WebSocket] Not connected, cannot send message"])

/-- subscribe() from websocket.ts: send a subscribe frame listing the
requested events. -/
def subscribe (st : WSClientState) (events : List String) :
    WSClientState × List OutMessage × List String :=
  send st (OutMessage.subscribeMsg events)

/-- attemptReconnect() from websocket.ts: stop once reconnectAttempts
has reached maxReconnectAttempts; otherwise increment the counter and
schedule a retry after reconnectDelay * 2 ^ (reconnectAttempts - 1)
milliseconds.  The scheduled delay is returned as the second
component, none when no retry is scheduled. -/
def attemptReconnect (st : WSClientState) : WSClientState × Option Nat :=
  if maxReconnectAttempts ≤ st.reconnectAttempts then (st, none)
  else
    let attempts := st.reconnectAttempts + 1
    let delay := reconnectDelay * 2 ^ (attempts - 1)
    ({ st with reconnectAttempts := attempts }, some delay)

/-- Delays observed over a run of consecutive failed reconnects: iterate
attemptReconnect, collecting each scheduled delay, until no retry is
scheduled (fuel bounds the iteration). -/
def reconnectRun (st : WSClientState) : Nat → List Nat
  | 0 => []
  | fuel + 1 =>
    match attemptReconnect st with
    | (_, none) => []
    | (st2, some d) => d :: reconnectRun st2 fuel

/-- The module-level singleton accessor getWebSocketClient from
websocket.ts: the slot holds the instance once created; a fresh
identifier is used only when the slot is empty.  Returns the instance
and the updated slot. -/
def getWebSocketClient (slot : Option Nat) (freshId : Nat) : Nat × Option Nat :=
  match slot with
  | some c => (c, some c)
  | none => (freshId, some freshId)

/-- A thrown JavaScript value: either an Error object carrying a
message, or any other value rendered by String(). -/
inductive Thrown where
  | errObj (msg : String)
  | other (repr : String)
deriving DecidableEq, Repr

/-- Coercion used in useAPI.ts: err instanceof Error ? err :
new Error(String(err)); the resulting Error is identified by its
message. -/
def coerceError : Thrown → String
  | Thrown.errObj m => m
  | Thrown.other r => r

/-- String(error) as used in ChatKitPanel.tsx. -/
def stringOfThrown : Thrown → String
  | Thrown.errObj m => m
  | Thrown.other r => r

/-- React state held by the useAPI hook: data, loading, error. -/
structure APIState (T : Type) where
  data : Option T
  loading : Bool
  error : Option String
deriving DecidableEq, Repr

/-- execute from useAPI.ts: set loading, clear error, await the wrapped
function; on resolution store and return the result, on rejection store
the coerced error and return null; in both cases clear loading in the
finally block.  The settled promise value is the second component —
execute itself never rejects, which the embedding reflects by being a
total function. -/
def APIState.execute {T : Type} (st : APIState T) (apiResult : Except Thrown T) :
    APIState T × Option T :=
  let st1 : APIState T := { st with loading := true, error := none }
  match apiResult with
  | Except.ok r => ({ st1 with data := some r, loading := false }, some r)
  | Except.error e =>
    ({ st1 with error := some (coerceError e), loading := false }, none)

/-- A client tool invocation: name and params, the untyped params object
modelled as string key/value pairs (ChatKitPanel.tsx). -/
structure ClientToolInvocation where
  name : String
  params : List (String × String)
deriving DecidableEq, Repr

/-- Tool response shape returned by the client-tool boundary:
success flag plus optional error string. -/
structure ToolResponse where
  success : Bool
  error : Option String
deriving DecidableEq, Repr

/-- invocation.params.theme lookup. -/
def lookupParam (params : List (String × String)) (key : String) : Option String :=
  match params.find? (fun p => p.1 == key) with
  | some p => some p.2
  | none => none

/-- handleClientTool from ChatKitPanel.tsx: the built-in switch_theme
tool succeeds exactly on a light or dark theme param (emitting the theme
change, returned as the second component); otherwise the invocation is
delegated to the custom handler when one is installed, a throwing
handler being caught and translated to success:false with the error
rendered by String(); with no handler the result is success:false.  The
boundary is a total function: it never propagates a throw. -/
def handleClientTool
    (onClientTool : Option (ClientToolInvocation → Except Thrown ToolResponse))
    (inv : ClientToolInvocation) : ToolResponse × Option String :=
  if inv.name = "switch_theme" then
    match lookupParam inv.params "theme" with
    | some t =>
      if t = "light" ∨ t = "dark" then (⟨true, none⟩, some t)
      else (⟨false, none⟩, none)
    | none => (⟨false, none⟩, none)
  else
    match onClientTool with
    | some h =>
      match h inv with
      | Except.ok r => (r, none)
      | Except.error e => (⟨false, some (stringOfThrown e)⟩, none)
    | none => (⟨false, none⟩, none)

/-- Modelled from the spec: task lifecycle status values of the Task
Store, which is described in the specification only (its implementation
is not part of the source tree). -/
inductive TaskStatus where
  | queued
  | assigned
  | running
  | waitingOnDependency
  | completed
  | failed
  | cancelled
deriving DecidableEq, Repr

/-- Modelled from the spec: completed, failed and cancelled are the
terminal states. -/
def TaskStatus.isTerminal : TaskStatus → Bool
  | TaskStatus.completed => true
  | TaskStatus.failed => true
  | TaskStatus.cancelled => true
  | _ => false

/-- Modelled from the spec: the allowed transition graph
queued→assigned→running→(completed|failed|cancelled), plus
queued→cancelled and star→cancelled; no edge leaves a terminal state. -/
def allowedEdge : TaskStatus → TaskStatus → Bool
  | TaskStatus.queued, TaskStatus.assigned => true
  | TaskStatus.assigned, TaskStatus.running => true
  | TaskStatus.running, TaskStatus.completed => true
  | TaskStatus.running, TaskStatus.failed => true
  | s, TaskStatus.cancelled => !s.isTerminal
  | _, _ => false

/-- Modelled from the spec: the Task record of the data model. -/
structure Task where
  id : Nat
  kind : String
  description : String
  priority : Int
  status : TaskStatus
  dependsOn : List Nat
  assignedAgent : Option Nat
  result : Option String
  error : Option String
  createdAt : Nat
  startedAt : Option Nat
  completedAt : Option Nat
deriving DecidableEq, Repr

/-- Modelled from the spec: an event emitted on the Event Bus by the
Task Store on every successful transition. -/
structure StoreEvent where
  topic : String
  taskId : Nat
deriving DecidableEq, Repr

/-- Modelled from the spec: Task Store state — the id keyed task
records, the log of events emitted to the Event Bus, the id generator
and a logical clock supplying timestamps. -/
structure StoreState where
  tasks : List Task
  events : List StoreEvent
  nextId : Nat
  clock : Nat
deriving DecidableEq, Repr

/-- The empty Task Store. -/
def emptyStore : StoreState := ⟨[], [], 0, 0⟩

/-- Modelled from the spec: errors raised by the Task Store contract. -/
inductive StoreError where
  | notFound
  | invalidTransition
  | dependencyUnmet
deriving DecidableEq, Repr

/-- get(id): first record with the given id. -/
def getTask (st : StoreState) (id : Nat) : Option Task :=
  st.tasks.find? (fun t => t.id == id)

/-- A single dependency is satisfied when the referenced task exists and
has reached completed. -/
def depSatisfied (st : StoreState) (d : Nat) : Bool :=
  match getTask st d with
  | some dt => dt.status == TaskStatus.completed
  | none => false

/-- All dependencies of a task are satisfied. -/
def depsSatisfied (st : StoreState) (deps : List Nat) : Bool :=
  deps.all (depSatisfied st)

/-- Event topic emitted for a transition into the given status. -/
def topicFor : TaskStatus → String
  | TaskStatus.queued => "task.queued"
  | TaskStatus.assigned => "task.assigned"
  | TaskStatus.running => "task.running"
  | TaskStatus.waitingOnDependency => "task.waiting"
  | TaskStatus.completed => "task.completed"
  | TaskStatus.failed => "task.failed"
  | TaskStatus.cancelled => "task.cancelled"

/-- Modelled from the spec: applying a status change to a record —
startedAt is set on the transition into running, completedAt on the
terminal transition, and result or error is populated on completed or
failed respectively. -/
def applyStatus (t : Task) (ns : TaskStatus) (payload : Option String)
    (now : Nat) : Task :=
  { t with
    status := ns,
    startedAt := if ns = TaskStatus.running then some now else t.startedAt,
    completedAt := if ns.isTerminal then some now else t.completedAt,
    result := if ns = TaskStatus.completed then payload else t.result,
    error := if ns = TaskStatus.failed then payload else t.error }

/-- Replace the first record with the given id. -/
def updateTask : List Task → Nat → Task → List Task
  | [], _, _ => []
  | t :: rest, id, t2 =>
    if t.id = id then t2 :: rest else t :: updateTask rest id t2

/-- Modelled from the spec: transition(id, newStatus, result|error)
rejects any transition out of a terminal state (InvalidTransition),
any transition into running while dependsOn is unsatisfied
(DependencyUnmet), and any edge outside the allowed graph
(InvalidTransition); a successful transition updates the record and
emits exactly one event before returning. -/
def transition (st : StoreState) (id : Nat) (ns : TaskStatus)
    (payload : Option String) : Except StoreError Task × StoreState :=
  match getTask st id with
  | none => (Except.error StoreError.notFound, st)
  | some t =>
    if t.status.isTerminal = true then
      (Except.error StoreError.invalidTransition, st)
    else if ns = TaskStatus.running ∧ depsSatisfied st t.dependsOn = false then
      (Except.error StoreError.dependencyUnmet, st)
    else if allowedEdge t.status ns = false then
      (Except.error StoreError.invalidTransition, st)
    else
      let t2 := applyStatus t ns payload st.clock
      (Except.ok t2,
       { st with
         tasks := updateTask st.tasks id t2,
         events := st.events ++ [⟨topicFor ns, id⟩],
         clock := st.clock + 1 })

/-- Modelled from the spec: the creation-time fields of a task. -/
structure TaskSpec where
  kind : String
  description : String
  priority : Int
  dependsOn : List Nat
deriving DecidableEq, Repr

/-- The fresh queued record built by create(spec): no agent, no result
or error, unset startedAt/completedAt. -/
def freshTask (st : StoreState) (s : TaskSpec) : Task :=
  { id := st.nextId, kind := s.kind, description := s.description,
    priority := s.priority, status := TaskStatus.queued,
    dependsOn := s.dependsOn, assignedAgent := none,
    result := none, error := none,
    createdAt := st.clock, startedAt := none, completedAt := none }

/-- Modelled from the spec: create(spec) — a fresh queued record is
added and a task.created event recorded. -/
def create (st : StoreState) (s : TaskSpec) : Task × StoreState :=
  (freshTask st s,
   { st with
     tasks := st.tasks ++ [freshTask st s],
     events := st.events ++ [⟨"task.created", st.nextId⟩],
     nextId := st.nextId + 1,
     clock := st.clock + 1 })

/-- Modelled from the spec: cancel(id) is idempotent — on an
already-terminal task it is a no-op returning the current record (no
error, no event); otherwise it transitions the task to cancelled. -/
def cancel (st : StoreState) (id : Nat) : Except StoreError Task × StoreState :=
  match getTask st id with
  | none => (Except.error StoreError.notFound, st)
  | some t =>
    if t.status.isTerminal = true then (Except.ok t, st)
    else transition st id TaskStatus.cancelled none

/-- Operations of the Task Store surface, for trace reasoning. -/
inductive StoreOp where
  | opCreate (s : TaskSpec)
  | opTransition (id : Nat) (ns : TaskStatus) (payload : Option String)
  | opCancel (id : Nat)
deriving DecidableEq, Repr

/-- The state reached after one operation (results discarded). -/
def stepOp (st : StoreState) : StoreOp → StoreState
  | StoreOp.opCreate s => (create st s).2
  | StoreOp.opTransition id ns p => (transition st id ns p).2
  | StoreOp.opCancel id => (cancel st id).2

/-- The state reached after a sequence of operations. -/
def runOps (st : StoreState) (ops : List StoreOp) : StoreState :=
  ops.foldl stepOp st

/-- Modelled from the spec: an Event on the bus — topic, payload,
per-bus monotone sequence number and timestamp. -/
structure BusEvent where
  topic : String
  payload : String
  sequence : Nat
  timestamp : Nat
deriving DecidableEq, Repr

/-- Modelled from the spec: an in-process subscriber with its topic
patterns, its own bounded queue and the gap flag set when the bounded
queue overflowed and dropped its oldest event. -/
structure Subscriber where
  topics : List String
  queue : List BusEvent
  capacity : Nat
  gapFlag : Bool
deriving DecidableEq, Repr

/-- Modelled from the spec: Event Bus and Broadcaster state — the
sequence counter, the in-process subscribers, the Broadcaster ring
buffer of the last ringCap events for replay, and a clock for
timestamps. -/
structure BusState where
  counter : Nat
  subscribers : List Subscriber
  ring : List BusEvent
  ringCap : Nat
  clock : Nat
deriving DecidableEq, Repr

/-- A topic matches a pattern list when some pattern is the wildcard or
the topic itself. -/
def topicMatches (patterns : List String) (topic : String) : Bool :=
  patterns.any (fun p => p == "*" || p == topic)

/-- Modelled from the spec: delivery of one event into one subscriber
queue — a non-matching topic leaves the subscriber untouched; a full
queue drops its oldest event and sets the gap flag rather than blocking
the publisher. -/
def enqueue (s : Subscriber) (e : BusEvent) : Subscriber :=
  if topicMatches s.topics e.topic = true then
    if s.capacity ≤ s.queue.length then
      { s with queue := s.queue.drop 1 ++ [e], gapFlag := true }
    else { s with queue := s.queue ++ [e] }
  else s

/-- Bounded push into the Broadcaster ring buffer. -/
def pushRing (buf : List BusEvent) (cap : Nat) (e : BusEvent) : List BusEvent :=
  if cap ≤ buf.length then buf.drop 1 ++ [e] else buf ++ [e]

/-- Modelled from the spec: publish(event) — the event receives the
current counter as its sequence number, the counter is advanced (never
reused), every subscriber queue receives the event through its own
bounded queue, and the ring buffer records it for replay. -/
def publish (b : BusState) (topic payload : String) : BusState × BusEvent :=
  let e : BusEvent := ⟨topic, payload, b.counter, b.clock⟩
  ({ b with
     counter := b.counter + 1,
     subscribers := b.subscribers.map (fun s => enqueue s e),
     ring := pushRing b.ring b.ringCap e,
     clock := b.clock + 1 }, e)

/-- Publish a sequence of (topic, payload) messages. -/
def publishAll (b : BusState) (msgs : List (String × String)) : BusState :=
  msgs.foldl (fun acc m => (publish acc m.1 m.2).1) b

/-- Sequence numbers assigned by publishing a sequence of messages. -/
def assignedSeqs (b : BusState) (msgs : List (String × String)) : List Nat :=
  match msgs with
  | [] => []
  | m :: rest =>
    let step := publish b m.1 m.2
    step.2.sequence :: assignedSeqs step.1 rest

/-- Oldest sequence number still held in the ring buffer; when the
buffer is empty nothing earlier than the counter is available. -/
def oldestBuffered (b : BusState) : Nat :=
  match b.ring.head? with
  | some e => e.sequence
  | none => b.counter

/-- Modelled from the spec: replay on reconnect — the buffered events
matching the connection topics with sequence above the client watermark
are redelivered, together with a gap indicator telling the client that
events after its watermark have already left the bounded buffer and a
gap-fill must be requested. -/
def replayFrom (b : BusState) (topics : List String) (watermark : Nat) :
    List BusEvent × Bool :=
  (b.ring.filter
     (fun e => topicMatches topics e.topic && decide (watermark < e.sequence)),
   decide (watermark + 1 < oldestBuffered b))

/-- Per-subscriber delivery invariant: every queue holds events with
strictly increasing sequence numbers, all below the bus counter. -/
def SubInv (b : BusState) : Prop :=
  ∀ s ∈ b.subscribers,
    List.Pairwise (fun e1 e2 => e1.sequence < e2.sequence) s.queue ∧
    ∀ e ∈ s.queue, e.sequence < b.counter

/-- Ring buffer invariant: the buffer holds exactly the most recent
consecutive run of sequence numbers ending at the counter. -/
def RingInv (b : BusState) : Prop :=
  b.ring.map (fun e => e.sequence) =
    List.range' (b.counter - b.ring.length) b.ring.length ∧
  b.ring.length ≤ b.counter

/-- A concrete task spec with no dependencies, used as evaluation input. -/
def specA : TaskSpec := ⟨"research", "step A", 0, []⟩

/-- A concrete task spec depending on task 0, used as evaluation input. -/
def specB : TaskSpec := ⟨"research", "step B", 0, [0]⟩

/-- Concrete store: task 0 queued, task 1 assigned with an unmet
dependency on task 0. -/
def storeAB : StoreState :=
  runOps emptyStore [StoreOp.opCreate specA, StoreOp.opCreate specB,
                     StoreOp.opTransition 1 TaskStatus.assigned none]

/-- The record of task 1 in storeAB. -/
def taskB : Task :=
  ⟨1, "research", "step B", 0, TaskStatus.assigned, [0],
   none, none, none, 1, none, none⟩

/-- Concrete store: task 0 driven to completed. -/
def storeDone : StoreState :=
  runOps emptyStore [StoreOp.opCreate specA,
                     StoreOp.opTransition 0 TaskStatus.assigned none,
                     StoreOp.opTransition 0 TaskStatus.running none,
                     StoreOp.opTransition 0 TaskStatus.completed (some "x")]

/-- The record of task 0 in storeDone. -/
def taskDone : Task :=
  ⟨0, "research", "step A", 0, TaskStatus.completed, [],
   none, some "x", none, 0, some 2, some 3⟩

/-- A concrete bus with one wildcard subscriber of capacity 2 and a ring
buffer of capacity 3. -/
def busW : BusState := ⟨0, [⟨["*"], [], 2, false⟩], [], 3, 0⟩

/-- Dependency/start invariant: every task that has started (startedAt
set) or is running has all its dependencies satisfied. -/
def StartInv (st : StoreState) : Prop :=
  ∀ (id : Nat) (t : Task), getTask st id = some t →
    t.startedAt.isSome = true ∨ t.status = TaskStatus.running →
    depsSatisfied st t.dependsOn = true

/-- A concrete operation sequence driving task 0 to completed and then
task 1 (which depends on task 0) to running. -/
def opsRun : List StoreOp :=
  [StoreOp.opCreate specA, StoreOp.opCreate specB,
   StoreOp.opTransition 0 TaskStatus.assigned none,
   StoreOp.opTransition 0 TaskStatus.running none,
   StoreOp.opTransition 0 TaskStatus.completed (some "x"),
   StoreOp.opTransition 1 TaskStatus.assigned none,
   StoreOp.opTransition 1 TaskStatus.running none]

/-- The record of task 1 after opsRun. -/
def taskBRun : Task :=
  ⟨1, "research", "step B", 0, TaskStatus.running, [0],
   none, none, none, 1, some 6, none⟩

/-! Theorems about the WebSocket client. -/

theorem invokeEach_eq_map (hs : List MessageHandler) (m : WebSocketMessage) :
    invokeEach hs m = hs.map (fun h => h m) := by
  induction hs with
  | nil => rfl
  | cons h rest ih =>
    cases hh : h m with
    | ok u => simp [invokeEach, hh, ih]
    | error e => simp [invokeEach, hh, ih]

theorem reconnectRun_head (st : WSClientState) (fuel : Nat) (d : Nat)
    (h : (reconnectRun st fuel).head? = some d) :
    d = reconnectDelay * 2 ^ st.reconnectAttempts := by
  cases fuel with
  | zero => simp [reconnectRun] at h
  | succ n =>
    by_cases hmax : maxReconnectAttempts ≤ st.reconnectAttempts
    · simp [reconnectRun, attemptReconnect, hmax] at h
    · simp [reconnectRun, attemptReconnect, hmax] at h
      exact h.symm

theorem reconnectRun_chain (fuel : Nat) :
    ∀ st : WSClientState, List.Chain' (· ≤ ·) (reconnectRun st fuel) := by
  induction fuel with
  | zero => intro st; simp [reconnectRun]
  | succ n ih =>
    intro st
    by_cases hmax : maxReconnectAttempts ≤ st.reconnectAttempts
    · simp [reconnectRun, attemptReconnect, hmax]
    · have hrun : reconnectRun st (n + 1) =
          reconnectDelay * 2 ^ st.reconnectAttempts ::
            reconnectRun { st with reconnectAttempts := st.reconnectAttempts + 1 } n := by
        simp [reconnectRun, attemptReconnect, hmax]
      rw [hrun]
      refine List.chain'_cons'.2 ⟨?_, ih _⟩
      intro d hd
      have hd2 := reconnectRun_head _ _ _ hd
      subst hd2
      have : (2 : Nat) ^ st.reconnectAttempts ≤ 2 ^ (st.reconnectAttempts + 1) :=
        Nat.pow_le_pow_right (by norm_num) (Nat.le_succ _)
      exact Nat.mul_le_mul_left _ this

/-- C1: automatic reconnect delays form an exponential backoff — the
delay scheduled before retry attempt n is the base delay (1000 ms)
times 2 ^ (n - 1), retries stop once the fixed bound of 5 attempts is
reached, and over any run of consecutive reconnects the observed delays
are non-decreasing. -/
theorem reconnect_backoff :
    maxReconnectAttempts = 5 ∧
    reconnectDelay = 1000 ∧
    (∀ st : WSClientState, maxReconnectAttempts ≤ st.reconnectAttempts →
      attemptReconnect st = (st, none)) ∧
    (∀ st : WSClientState, st.reconnectAttempts < maxReconnectAttempts →
      (attemptReconnect st).2 =
        some (reconnectDelay * 2 ^ ((st.reconnectAttempts + 1) - 1)) ∧
      (attemptReconnect st).1.reconnectAttempts = st.reconnectAttempts + 1) ∧
    (∀ (st : WSClientState) (fuel : Nat),
      List.Chain' (· ≤ ·) (reconnectRun st fuel)) := by
  refine ⟨rfl, rfl, ?_, ?_, fun st fuel => reconnectRun_chain fuel st⟩
  · intro st h
    simp [attemptReconnect, h]
  · intro st h
    have h2 : ¬ maxReconnectAttempts ≤ st.reconnectAttempts := Nat.not_le.2 h
    constructor
    · simp [attemptReconnect, h2]
    · simp [attemptReconnect, h2]

theorem reconnect_backoff_witness :
    attemptReconnect ⟨none, [], 5, false⟩ = (⟨none, [], 5, false⟩, none) ∧
    (attemptReconnect ⟨none, [], 0, false⟩).2 =
      some (reconnectDelay * 2 ^ ((0 + 1) - 1)) :=
  ⟨reconnect_backoff.2.2.1 ⟨none, [], 5, false⟩ (by decide),
   (reconnect_backoff.2.2.2.1 ⟨none, [], 0, false⟩ (by decide)).1⟩

/-- C2: message delivery is isolated per handler — for every received
message the outcome list pairs each registered handler (event-specific
ones first, then wildcard ones) with its own guarded invocation on that
same message, so a throwing handler never prevents any later handler
from being invoked, and the client connection state is returned
unchanged. -/
theorem handler_isolation (st : WSClientState) (m : WebSocketMessage) :
    (handleMessage st m).1 = st ∧
    (∀ i : Nat,
      ((handleMessage st m).2).get? i =
        ((lookupHandlers st.handlers m.event ++
            lookupHandlers st.handlers "*").get? i).map (fun h => h m)) := by
  constructor
  · rfl
  · intro i
    show (invokeEach (lookupHandlers st.handlers m.event) m ++
        invokeEach (lookupHandlers st.handlers "*") m).get? i = _
    rw [invokeEach_eq_map, invokeEach_eq_map, ← List.map_append, List.get?_map]

/-- C8: at most one underlying socket per client — connect() on a
client whose socket is OPEN or whose connection attempt is in progress
returns a resolved promise without constructing a new WebSocket and
leaves the state unchanged, and the singleton accessor returns the
identical instance on every call after the first. -/
theorem single_socket_instance :
    (∀ st : WSClientState, st.ws = some wsOPEN ∨ st.isConnecting = true →
      connect st = (st, ConnectResult.resolvedNoNew)) ∧
    (∀ (slot : Option Nat) (f1 f2 : Nat),
      (getWebSocketClient (getWebSocketClient slot f1).2 f2).1 =
        (getWebSocketClient slot f1).1 ∧
      (getWebSocketClient (getWebSocketClient slot f1).2 f2).2 =
        (getWebSocketClient slot f1).2) := by
  constructor
  · intro st h
    simp [connect, h]
  · intro slot f1 f2
    cases slot with
    | some c => exact ⟨rfl, rfl⟩
    | none => exact ⟨rfl, rfl⟩

theorem single_socket_instance_witness :
    connect ⟨some wsOPEN, [], 0, false⟩ =
      (⟨some wsOPEN, [], 0, false⟩, ConnectResult.resolvedNoNew) :=
  single_socket_instance.1 ⟨some wsOPEN, [], 0, false⟩ (Or.inl rfl)

/-- C9: send() while the socket is not OPEN is a silent no-op — the
state is unchanged (nothing is buffered), nothing is transmitted, only
a console warning is produced, and no exception escapes (the embedding
is a total function); consequently subscribe() before the connection is
open transmits no subscription frame. -/
theorem send_noop_when_closed :
    (∀ (st : WSClientState) (m : OutMessage), st.ws ≠ some wsOPEN →
      send st m = (st, [], ["[WebSocket] Not connected, cannot send message"])) ∧
    (∀ (st : WSClientState) (events : List String), st.ws ≠ some wsOPEN →
      (subscribe st events).1 = st ∧ (subscribe st events).2.1 = []) := by
  constructor
  · intro st m h
    simp [send, h]
  · intro st events h
    constructor
    · simp [subscribe, send, h]
    · simp [subscribe, send, h]

theorem send_noop_when_closed_witness :
    send ⟨none, [], 0, false⟩ OutMessage.pingMsg =
      (⟨none, [], 0, false⟩, [],
       ["[WebSocket] Not connected, cannot send message"]) :=
  send_noop_when_closed.1 ⟨none, [], 0, false⟩ OutMessage.pingMsg (by decide)

/-- C10: execute from useAPI never rejects — a rejecting wrapped call
yields null, stores the thrown value coerced to an Error and leaves the
previously stored data unchanged, while a resolving call stores and
returns the result with error cleared; loading is false after either
settlement. -/
theorem useAPI_execute_settles :
    (∀ (T : Type) (st : APIState T) (e : Thrown),
      st.execute (Except.error e) =
        ({ data := st.data, loading := false, error := some (coerceError e) },
         none)) ∧
    (∀ (T : Type) (st : APIState T) (r : T),
      st.execute (Except.ok r) =
        ({ data := some r, loading := false, error := none }, some r)) :=
  ⟨fun T st e => rfl, fun T st r => rfl⟩

/-- C7: the client-tool boundary always returns a tagged outcome and
never throws — a throwing custom handler is translated to success:false
carrying the stringified error, an unknown tool (no custom handler
installed) yields success:false, and switch_theme with a missing or
invalid theme param yields success:false. -/
theorem client_tool_boundary :
    (∀ (h : ClientToolInvocation → Except Thrown ToolResponse)
       (inv : ClientToolInvocation) (e : Thrown),
      inv.name ≠ "switch_theme" → h inv = Except.error e →
      (handleClientTool (some h) inv).1 = ⟨false, some (stringOfThrown e)⟩) ∧
    (∀ inv : ClientToolInvocation, inv.name ≠ "switch_theme" →
      (handleClientTool none inv).1 = ⟨false, none⟩) ∧
    (∀ (oct : Option (ClientToolInvocation → Except Thrown ToolResponse))
       (inv : ClientToolInvocation),
      inv.name = "switch_theme" → lookupParam inv.params "theme" = none →
      (handleClientTool oct inv).1 = ⟨false, none⟩) ∧
    (∀ (oct : Option (ClientToolInvocation → Except Thrown ToolResponse))
       (inv : ClientToolInvocation) (t : String),
      inv.name = "switch_theme" → lookupParam inv.params "theme" = some t →
      t ≠ "light" → t ≠ "dark" →
      (handleClientTool oct inv).1 = ⟨false, none⟩) := by
  refine ⟨?_, ?_, ?_, ?_⟩
  · intro h inv e hname herr
    simp [handleClientTool, hname, herr]
  · intro inv hname
    simp [handleClientTool, hname]
  · intro oct inv hname hparam
    simp [handleClientTool, hname, hparam]
  · intro oct inv t hname hparam hlight hdark
    simp [handleClientTool, hname, hparam, hlight, hdark]

theorem client_tool_boundary_witness :
    (handleClientTool
        (some (fun _ => Except.error (Thrown.errObj "boom")))
        ⟨"run_command", []⟩).1 = ⟨false, some "boom"⟩ :=
  client_tool_boundary.1 (fun _ => Except.error (Thrown.errObj "boom"))
    ⟨"run_command", []⟩ (Thrown.errObj "boom") (by decide) rfl

/-! Theorems about the Task Store model. -/

theorem getTask_id (st : StoreState) (id : Nat) (t : Task)
    (h : getTask st id = some t) : t.id = id := by
  simp only [getTask] at h
  simpa using List.find?_some h

theorem find_id_cons (t0 : Task) (rest : List Task) (id : Nat) :
    (t0 :: rest).find? (fun x => x.id == id) =
      if t0.id = id then some t0 else rest.find? (fun x => x.id == id) := by
  by_cases h : t0.id = id
  · simp [List.find?_cons, h]
  · simp [List.find?_cons, h]

theorem find?_updateTask_self (ts : List Task) (id : Nat) (t2 t : Task)
    (hfind : ts.find? (fun x => x.id == id) = some t) (hid : t2.id = id) :
    (updateTask ts id t2).find? (fun x => x.id == id) = some t2 := by
  induction ts with
  | nil => simp at hfind
  | cons t0 rest ih =>
    by_cases h0 : t0.id = id
    · simp only [updateTask, if_pos h0]
      rw [find_id_cons, if_pos hid]
    · simp only [updateTask, if_neg h0]
      rw [find_id_cons, if_neg h0]
      rw [find_id_cons, if_neg h0] at hfind
      exact ih hfind

theorem find?_updateTask_other (ts : List Task) (id : Nat) (t2 : Task)
    (id' : Nat) (hid : t2.id = id) (hne : id' ≠ id) :
    (updateTask ts id t2).find? (fun x => x.id == id') =
      ts.find? (fun x => x.id == id') := by
  induction ts with
  | nil => rfl
  | cons t0 rest ih =>
    by_cases h0 : t0.id = id
    · have h1 : ¬ (t2.id = id') := by
        rw [hid]; exact fun he => hne he.symm
      have h2 : ¬ (t0.id = id') := by
        rw [h0]; exact fun he => hne he.symm
      simp only [updateTask, if_pos h0]
      rw [find_id_cons, if_neg h1, find_id_cons, if_neg h2]
    · simp only [updateTask, if_neg h0]
      rw [find_id_cons, find_id_cons]
      by_cases hp : t0.id = id'
      · rw [if_pos hp, if_pos hp]
      · rw [if_neg hp, if_neg hp]
        exact ih

theorem transition_terminal_rejected (st : StoreState) (id : Nat)
    (ns : TaskStatus) (p : Option String) (t : Task)
    (hget : getTask st id = some t) (hterm : t.status.isTerminal = true) :
    transition st id ns p = (Except.error StoreError.invalidTransition, st) := by
  simp only [transition, hget]
  rw [if_pos hterm]

theorem transition_dep_unmet (st : StoreState) (id : Nat) (p : Option String)
    (t : Task) (hget : getTask st id = some t)
    (hterm : t.status.isTerminal = false)
    (hdep : depsSatisfied st t.dependsOn = false) :
    transition st id TaskStatus.running p =
      (Except.error StoreError.dependencyUnmet, st) := by
  simp only [transition, hget]
  rw [if_neg (by simp [hterm]), if_pos ⟨by trivial, hdep⟩]

theorem transition_cases (st : StoreState) (id : Nat) (ns : TaskStatus)
    (p : Option String) :
    (∃ err : StoreError, transition st id ns p = (Except.error err, st)) ∨
    ∃ t : Task, getTask st id = some t ∧
      t.status.isTerminal = false ∧
      allowedEdge t.status ns = true ∧
      (ns = TaskStatus.running → depsSatisfied st t.dependsOn = true) ∧
      transition st id ns p =
        (Except.ok (applyStatus t ns p st.clock),
         { st with
           tasks := updateTask st.tasks id (applyStatus t ns p st.clock),
           events := st.events ++ [⟨topicFor ns, id⟩],
           clock := st.clock + 1 }) := by
  cases hget : getTask st id with
  | none =>
    left
    exact ⟨StoreError.notFound, by simp only [transition, hget]⟩
  | some t =>
    by_cases h1 : t.status.isTerminal = true
    · left
      exact ⟨StoreError.invalidTransition,
        transition_terminal_rejected st id ns p t hget h1⟩
    · have h1f : t.status.isTerminal = false := by simpa using h1
      by_cases h2 : ns = TaskStatus.running ∧ depsSatisfied st t.dependsOn = false
      · left
        refine ⟨StoreError.dependencyUnmet, ?_⟩
        simp only [transition, hget]
        rw [if_neg (by simp [h1f]), if_pos h2]
      · by_cases h3 : allowedEdge t.status ns = true
        · right
          refine ⟨t, rfl, h1f, h3, ?_, ?_⟩
          · intro hns
            by_contra hdep
            exact h2 ⟨hns, by simpa using hdep⟩
          · simp only [transition, hget]
            rw [if_neg (by simp [h1f]), if_neg h2, if_neg (by simp [h3])]
        · left
          refine ⟨StoreError.invalidTransition, ?_⟩
          simp only [transition, hget]
          rw [if_neg (by simp [h1f]), if_neg h2, if_pos (by simpa using h3)]

theorem applyStatus_id (t : Task) (ns : TaskStatus) (p : Option String)
    (now : Nat) : (applyStatus t ns p now).id = t.id := rfl

theorem getTask_update (st : StoreState) (id0 : Nat) (t0 : Task)
    (hget0 : getTask st id0 = some t0) (t2 : Task) (hid : t2.id = id0)
    (ev : List StoreEvent) (nid cl : Nat) (id : Nat) :
    getTask { st with tasks := updateTask st.tasks id0 t2,
                      events := ev, nextId := nid, clock := cl } id =
      (if id = id0 then some t2 else getTask st id) := by
  by_cases hid' : id = id0
  · subst hid'
    rw [if_pos rfl]
    simp only [getTask] at hget0 ⊢
    exact find?_updateTask_self st.tasks id t2 t0 hget0 hid
  · rw [if_neg hid']
    simp only [getTask]
    exact find?_updateTask_other st.tasks id0 t2 id hid hid'

theorem getTask_transition_cases (st : StoreState) (id0 : Nat)
    (ns : TaskStatus) (p : Option String) (id : Nat) (t' : Task)
    (h : getTask (transition st id0 ns p).2 id = some t') :
    getTask st id = some t' ∨
      ∃ t : Task, getTask st id = some t ∧
        t' = applyStatus t ns p st.clock ∧
        t.status.isTerminal = false ∧
        allowedEdge t.status ns = true ∧
        (ns = TaskStatus.running → depsSatisfied st t.dependsOn = true) := by
  rcases transition_cases st id0 ns p with ⟨err, herr⟩ | ⟨t, hget, h1, h3, hdep, heq⟩
  · rw [herr] at h
    exact Or.inl h
  · rw [heq] at h
    rw [getTask_update st id0 t hget (applyStatus t ns p st.clock)
      (by rw [applyStatus_id]; exact getTask_id st id0 t hget) _ _ _ id] at h
    by_cases hid : id = id0
    · rw [if_pos hid] at h
      subst hid
      exact Or.inr ⟨t, hget, (Option.some.inj h).symm, h1, h3, hdep⟩
    · rw [if_neg hid] at h
      exact Or.inl h

theorem getTask_cancel_cases (st : StoreState) (id0 : Nat) (id : Nat) (t' : Task)
    (h : getTask (cancel st id0).2 id = some t') :
    getTask st id = some t' ∨
      ∃ t : Task, getTask st id = some t ∧
        t' = applyStatus t TaskStatus.cancelled none st.clock ∧
        t.status.isTerminal = false ∧
        allowedEdge t.status TaskStatus.cancelled = true ∧
        (TaskStatus.cancelled = TaskStatus.running →
          depsSatisfied st t.dependsOn = true) := by
  cases hget : getTask st id0 with
  | none =>
    simp only [cancel, hget] at h
    exact Or.inl h
  | some t0 =>
    simp only [cancel, hget] at h
    by_cases h1 : t0.status.isTerminal = true
    · rw [if_pos h1] at h
      exact Or.inl h
    · rw [if_neg h1] at h
      exact getTask_transition_cases st id0 TaskStatus.cancelled none id t' h

theorem getTask_create_cases (st : StoreState) (s : TaskSpec) (id : Nat)
    (t' : Task) (h : getTask (create st s).2 id = some t') :
    getTask st id = some t' ∨
      (t'.status = TaskStatus.queued ∧ t'.startedAt = none) := by
  simp only [getTask, create] at h
  rw [List.find?_append] at h
  cases hf : st.tasks.find? (fun x => x.id == id) with
  | some t1 =>
    rw [hf] at h
    simp only [Option.or] at h
    left
    simp only [getTask]
    rw [hf, h]
  | none =>
    rw [hf] at h
    simp only [Option.or] at h
    have hmem := List.mem_of_find?_eq_some h
    have ht' : t' = freshTask st s := by simpa using hmem
    right
    rw [ht']
    exact ⟨rfl, rfl⟩

theorem getTask_stepOp_cases (st : StoreState) (op : StoreOp) (id : Nat)
    (t' : Task) (h : getTask (stepOp st op) id = some t') :
    getTask st id = some t' ∨
    (t'.status = TaskStatus.queued ∧ t'.startedAt = none) ∨
    ∃ (t : Task) (ns : TaskStatus) (p : Option String),
      getTask st id = some t ∧ t' = applyStatus t ns p st.clock ∧
      t.status.isTerminal = false ∧ allowedEdge t.status ns = true ∧
      (ns = TaskStatus.running → depsSatisfied st t.dependsOn = true) := by
  cases op with
  | opCreate s =>
    rcases getTask_create_cases st s id t' h with h1 | h1
    · exact Or.inl h1
    · exact Or.inr (Or.inl h1)
  | opTransition id0 ns p =>
    rcases getTask_transition_cases st id0 ns p id t' h with h1 |
      ⟨t, hg, he, h1, h3, hd⟩
    · exact Or.inl h1
    · exact Or.inr (Or.inr ⟨t, ns, p, hg, he, h1, h3, hd⟩)
  | opCancel id0 =>
    rcases getTask_cancel_cases st id0 id t' h with h1 |
      ⟨t, hg, he, h1, h3, hd⟩
    · exact Or.inl h1
    · exact Or.inr (Or.inr ⟨t, TaskStatus.cancelled, none, hg, he, h1, h3, hd⟩)

theorem getTask_transition_terminal (st : StoreState) (id0 : Nat)
    (ns : TaskStatus) (p : Option String) (id : Nat) (t : Task)
    (hget : getTask st id = some t) (hterm : t.status.isTerminal = true) :
    getTask (transition st id0 ns p).2 id = some t := by
  rcases transition_cases st id0 ns p with ⟨err, herr⟩ | ⟨t0, hget0, h1, _, _, heq⟩
  · rw [herr]
    exact hget
  · rw [heq]
    rw [getTask_update st id0 t0 hget0 (applyStatus t0 ns p st.clock)
      (by rw [applyStatus_id]; exact getTask_id st id0 t0 hget0) _ _ _ id]
    by_cases hid : id = id0
    · subst hid
      have : t0 = t := Option.some.inj (hget0.symm.trans hget)
      rw [this] at h1
      rw [h1] at hterm
      cases hterm
    · rw [if_neg hid]
      exact hget

theorem getTask_stepOp_terminal (st : StoreState) (op : StoreOp) (id : Nat)
    (t : Task) (hget : getTask st id = some t)
    (hterm : t.status.isTerminal = true) :
    getTask (stepOp st op) id = some t := by
  cases op with
  | opCreate s =>
    show getTask (create st s).2 id = some t
    simp only [getTask, create] at hget ⊢
    rw [List.find?_append, hget]
    rfl
  | opTransition id0 ns p =>
    exact getTask_transition_terminal st id0 ns p id t hget hterm
  | opCancel id0 =>
    show getTask (cancel st id0).2 id = some t
    cases hget0 : getTask st id0 with
    | none =>
      simp only [cancel, hget0]
      exact hget
    | some t0 =>
      simp only [cancel, hget0]
      by_cases h1 : t0.status.isTerminal = true
      · rw [if_pos h1]
        exact hget
      · rw [if_neg h1]
        exact getTask_transition_terminal st id0 TaskStatus.cancelled none id t
          hget hterm

theorem getTask_runOps_terminal (ops : List StoreOp) :
    ∀ (st : StoreState) (id : Nat) (t : Task),
      getTask st id = some t → t.status.isTerminal = true →
      getTask (runOps st ops) id = some t := by
  induction ops with
  | nil => intro st id t h _; exact h
  | cons op rest ih =>
    intro st id t h hterm
    exact ih (stepOp st op) id t (getTask_stepOp_terminal st op id t h hterm)
      hterm

theorem depSatisfied_stepOp (st : StoreState) (op : StoreOp) (d : Nat)
    (h : depSatisfied st d = true) : depSatisfied (stepOp st op) d = true := by
  unfold depSatisfied at h ⊢
  cases hget : getTask st d with
  | none => rw [hget] at h; cases h
  | some dt =>
    rw [hget] at h
    have hc : dt.status = TaskStatus.completed := by simpa using h
    have hterm : dt.status.isTerminal = true := by rw [hc]; rfl
    rw [getTask_stepOp_terminal st op d dt hget hterm]
    exact h

theorem depsSatisfied_stepOp (st : StoreState) (op : StoreOp) (deps : List Nat)
    (h : depsSatisfied st deps = true) :
    depsSatisfied (stepOp st op) deps = true := by
  unfold depsSatisfied at h ⊢
  rw [List.all_eq_true] at h ⊢
  intro d hd
  exact depSatisfied_stepOp st op d (h d hd)

theorem startInv_step (st : StoreState) (op : StoreOp) (h : StartInv st) :
    StartInv (stepOp st op) := by
  intro id t' hget hstarted
  rcases getTask_stepOp_cases st op id t' hget with hold | hnew |
    ⟨t, ns, p, hget0, heq, h1, h3, hdep⟩
  · exact depsSatisfied_stepOp st op _ (h id t' hold hstarted)
  · rcases hstarted with hs | hs
    · rw [hnew.2] at hs
      cases hs
    · rw [hnew.1] at hs
      cases hs
  · have hdeps_el : t'.dependsOn = t.dependsOn := by rw [heq]; rfl
    by_cases hns : ns = TaskStatus.running
    · rw [hdeps_el]
      exact depsSatisfied_stepOp st op _ (hdep hns)
    · have hstart : t'.startedAt = t.startedAt := by
        rw [heq]
        simp [applyStatus, hns]
      have hstat : t'.status = ns := by rw [heq]; rfl
      rcases hstarted with hs | hs
      · rw [hstart] at hs
        rw [hdeps_el]
        exact depsSatisfied_stepOp st op _ (h id t hget0 (Or.inl hs))
      · rw [hstat] at hs
        exact absurd hs hns

theorem startInv_runOps (ops : List StoreOp) :
    ∀ st : StoreState, StartInv st → StartInv (runOps st ops) := by
  induction ops with
  | nil => intro st h; exact h
  | cons op rest ih =>
    intro st h
    exact ih (stepOp st op) (startInv_step st op h)

theorem startInv_empty : StartInv emptyStore := by
  intro id t hget
  simp [getTask, emptyStore] at hget

/-- C3: task status moves only along the allowed transition graph — a
successful transition always follows an allowed edge and sets exactly
the requested status, any transition requested on a task already in a
terminal state is rejected with InvalidTransition leaving the store
unchanged, and a terminal record stays unchanged under every further
sequence of store operations. -/
theorem status_transition_graph :
    (∀ (st : StoreState) (id : Nat) (ns : TaskStatus) (p : Option String)
       (t t2 : Task) (st2 : StoreState),
      getTask st id = some t →
      transition st id ns p = (Except.ok t2, st2) →
      allowedEdge t.status ns = true ∧ t2.status = ns) ∧
    (∀ (st : StoreState) (id : Nat) (ns : TaskStatus) (p : Option String)
       (t : Task),
      getTask st id = some t → t.status.isTerminal = true →
      transition st id ns p = (Except.error StoreError.invalidTransition, st)) ∧
    (∀ (st : StoreState) (ops : List StoreOp) (id : Nat) (t : Task),
      getTask st id = some t → t.status.isTerminal = true →
      getTask (runOps st ops) id = some t) := by
  refine ⟨?_, ?_, ?_⟩
  · intro st id ns p t t2 st2 hget htr
    rcases transition_cases st id ns p with ⟨err, herr⟩ | ⟨t0, hget0, h1, h3, hdep, heq⟩
    · rw [htr] at herr
      cases herr
    · rw [htr] at heq
      have ht0 : t0 = t := Option.some.inj (hget0.symm.trans hget)
      have ht2 : t2 = applyStatus t0 ns p st.clock :=
        Except.ok.inj (congrArg Prod.fst heq)
      subst ht0
      exact ⟨h3, by rw [ht2]; rfl⟩
  · intro st id ns p t hget hterm
    exact transition_terminal_rejected st id ns p t hget hterm
  · intro st ops id t hget hterm
    exact getTask_runOps_terminal ops st id t hget hterm

theorem status_transition_graph_witness :
    transition storeDone 0 TaskStatus.running none =
      (Except.error StoreError.invalidTransition, storeDone) ∧
    getTask (runOps storeDone [StoreOp.opCancel 0]) 0 = some taskDone :=
  ⟨status_transition_graph.2.1 storeDone 0 TaskStatus.running none taskDone
     (by rfl) (by rfl),
   status_transition_graph.2.2 storeDone [StoreOp.opCancel 0] 0 taskDone
     (by rfl) (by rfl)⟩

/-- C4: a task with unmet dependencies never runs — a transition into
running while some dependency is not completed is rejected with a
DependencyUnmet error leaving the store unchanged, and in every store
reachable from the empty store a task whose startedAt is set or whose
status is running has all its dependencies completed. -/
theorem dependency_gating :
    (∀ (st : StoreState) (id : Nat) (p : Option String) (t : Task),
      getTask st id = some t → t.status.isTerminal = false →
      depsSatisfied st t.dependsOn = false →
      transition st id TaskStatus.running p =
        (Except.error StoreError.dependencyUnmet, st)) ∧
    (∀ (ops : List StoreOp) (id : Nat) (t : Task),
      getTask (runOps emptyStore ops) id = some t →
      t.startedAt.isSome = true ∨ t.status = TaskStatus.running →
      depsSatisfied (runOps emptyStore ops) t.dependsOn = true) := by
  refine ⟨?_, ?_⟩
  · intro st id p t hget hterm hdep
    exact transition_dep_unmet st id p t hget hterm hdep
  · intro ops id t hget hstarted
    exact startInv_runOps ops emptyStore startInv_empty id t hget hstarted

theorem dependency_gating_witness :
    transition storeAB 1 TaskStatus.running none =
      (Except.error StoreError.dependencyUnmet, storeAB) ∧
    depsSatisfied (runOps emptyStore opsRun) taskBRun.dependsOn = true :=
  ⟨dependency_gating.1 storeAB 1 none taskB (by rfl) (by rfl) (by rfl),
   dependency_gating.2 opsRun 1 taskBRun (by rfl) (Or.inl (by rfl))⟩

/-- C5: cancel is idempotent on terminal tasks — cancelling a task that
is already in a terminal state succeeds with the current record
unchanged, emits no additional event, and a repeated cancel returns the
same terminal record again. -/
theorem cancel_terminal_idempotent :
    ∀ (st : StoreState) (id : Nat) (t : Task),
      getTask st id = some t → t.status.isTerminal = true →
      cancel st id = (Except.ok t, st) ∧
      (cancel st id).2.events = st.events ∧
      cancel (cancel st id).2 id = (Except.ok t, st) := by
  intro st id t hget hterm
  have h1 : cancel st id = (Except.ok t, st) := by
    simp only [cancel, hget]
    rw [if_pos hterm]
  refine ⟨h1, by rw [h1], by rw [h1]; exact h1⟩

theorem cancel_terminal_idempotent_witness :
    cancel storeDone 0 = (Except.ok taskDone, storeDone) ∧
    cancel (cancel storeDone 0).2 0 = (Except.ok taskDone, storeDone) :=
  ⟨(cancel_terminal_idempotent storeDone 0 taskDone (by rfl) (by rfl)).1,
   (cancel_terminal_idempotent storeDone 0 taskDone (by rfl) (by rfl)).2.2⟩

/-! Theorems about the Event Bus and Broadcaster model. -/

theorem assignedSeqs_eq_range (msgs : List (String × String)) :
    ∀ b : BusState, assignedSeqs b msgs = List.range' b.counter msgs.length := by
  induction msgs with
  | nil => intro b; rfl
  | cons m rest ih =>
    intro b
    show (publish b m.1 m.2).2.sequence ::
        assignedSeqs (publish b m.1 m.2).1 rest = _
    rw [ih]
    rfl

theorem enqueue_inv (s : Subscriber) (e : BusEvent) (c : Nat)
    (hq : List.Pairwise (fun e1 e2 => e1.sequence < e2.sequence) s.queue)
    (hb : ∀ x ∈ s.queue, x.sequence < c)
    (he : e.sequence = c) :
    List.Pairwise (fun e1 e2 => e1.sequence < e2.sequence) (enqueue s e).queue ∧
    ∀ x ∈ (enqueue s e).queue, x.sequence < c + 1 := by
  unfold enqueue
  by_cases hm : topicMatches s.topics e.topic = true
  · rw [if_pos hm]
    by_cases hf : s.capacity ≤ s.queue.length
    · rw [if_pos hf]
      constructor
      · show List.Pairwise _ (s.queue.drop 1 ++ [e])
        rw [List.pairwise_append]
        refine ⟨List.Pairwise.sublist (List.drop_sublist 1 s.queue) hq,
          List.pairwise_singleton _ _, ?_⟩
        intro a ha b hbm
        have hbe : b = e := by simpa using hbm
        rw [hbe, he]
        exact hb a ((List.drop_sublist 1 s.queue).subset ha)
      · intro x hx
        have hx' : x ∈ s.queue.drop 1 ++ [e] := hx
        rcases List.mem_append.1 hx' with h1 | h1
        · exact Nat.lt_succ_of_lt (hb x ((List.drop_sublist 1 s.queue).subset h1))
        · have : x = e := by simpa using h1
          rw [this, he]
          exact Nat.lt_succ_self c
    · rw [if_neg hf]
      constructor
      · show List.Pairwise _ (s.queue ++ [e])
        rw [List.pairwise_append]
        refine ⟨hq, List.pairwise_singleton _ _, ?_⟩
        intro a ha b hbm
        have hbe : b = e := by simpa using hbm
        rw [hbe, he]
        exact hb a ha
      · intro x hx
        have hx' : x ∈ s.queue ++ [e] := hx
        rcases List.mem_append.1 hx' with h1 | h1
        · exact Nat.lt_succ_of_lt (hb x h1)
        · have : x = e := by simpa using h1
          rw [this, he]
          exact Nat.lt_succ_self c
  · rw [if_neg hm]
    exact ⟨hq, fun x hx => Nat.lt_succ_of_lt (hb x hx)⟩

theorem subInv_publish (b : BusState) (topic payload : String) (h : SubInv b) :
    SubInv (publish b topic payload).1 := by
  intro s' hs'
  have hs'' : s' ∈ b.subscribers.map
      (fun s => enqueue s ⟨topic, payload, b.counter, b.clock⟩) := hs'
  rcases List.mem_map.1 hs'' with ⟨s, hmem, hse⟩
  rcases h s hmem with ⟨hq, hbnd⟩
  have hinv := enqueue_inv s ⟨topic, payload, b.counter, b.clock⟩ b.counter
    hq hbnd rfl
  rw [hse] at hinv
  exact ⟨hinv.1, fun x hx => hinv.2 x hx⟩

theorem subInv_publishAll (msgs : List (String × String)) :
    ∀ b : BusState, SubInv b → SubInv (publishAll b msgs) := by
  induction msgs with
  | nil => intro b h; exact h
  | cons m rest ih =>
    intro b h
    exact ih (publish b m.1 m.2).1 (subInv_publish b m.1 m.2 h)

theorem range'_snoc (k n c : Nat) (h : k + n = c) :
    List.range' k n ++ [c] = List.range' k (n + 1) := by
  rw [List.range'_concat, one_mul, h]

theorem pushRing_inv (buf : List BusEvent) (cap : Nat) (e : BusEvent) (c : Nat)
    (hmap : buf.map (fun x => x.sequence) = List.range' (c - buf.length) buf.length)
    (hlen : buf.length ≤ c) (he : e.sequence = c) :
    (pushRing buf cap e).map (fun x => x.sequence) =
      List.range' ((c + 1) - (pushRing buf cap e).length)
        (pushRing buf cap e).length ∧
    (pushRing buf cap e).length ≤ c + 1 := by
  unfold pushRing
  by_cases hf : cap ≤ buf.length
  · rw [if_pos hf]
    cases buf with
    | nil =>
      refine ⟨?_, ?_⟩
      · simp only [List.drop_nil, List.nil_append, List.map_cons, List.map_nil,
          List.length_cons, List.length_nil, he]
        rw [show c + 1 - (0 + 1) = c from by omega]
        rfl
      · simp only [List.drop_nil, List.nil_append, List.length_cons,
          List.length_nil]
        omega
    | cons e0 rest =>
      have hL : (e0 :: rest).length = rest.length + 1 := rfl
      rw [hL] at hmap hlen
      have hrest : rest.map (fun x => x.sequence) =
          List.range' (c - (rest.length + 1) + 1) rest.length := by
        have hmap2 : e0.sequence :: rest.map (fun x => x.sequence) =
            (c - (rest.length + 1)) ::
              List.range' (c - (rest.length + 1) + 1) rest.length := by
          rw [← List.range'_succ]
          exact hmap
        injection hmap2
      refine ⟨?_, ?_⟩
      · simp only [List.drop_succ_cons, List.drop_zero, List.map_append,
          List.map_cons, List.map_nil, List.length_append, List.length_cons,
          List.length_nil, he]
        rw [hrest]
        rw [show rest.length + (0 + 1) = rest.length + 1 from by omega]
        rw [show c + 1 - (rest.length + 1) = c - (rest.length + 1) + 1 from by
          omega]
        exact range'_snoc _ _ _ (by omega)
      · simp only [List.drop_succ_cons, List.drop_zero, List.length_append,
          List.length_cons, List.length_nil]
        omega
  · rw [if_neg hf]
    refine ⟨?_, ?_⟩
    · simp only [List.map_append, List.map_cons, List.map_nil,
        List.length_append, List.length_cons, List.length_nil, he]
      rw [hmap]
      rw [show buf.length + (0 + 1) = buf.length + 1 from by omega]
      rw [show c + 1 - (buf.length + 1) = c - buf.length from by omega]
      exact range'_snoc _ _ _ (by omega)
    · simp only [List.length_append, List.length_cons, List.length_nil]
      omega

theorem ringInv_publish (b : BusState) (topic payload : String) (h : RingInv b) :
    RingInv (publish b topic payload).1 := by
  rcases h with ⟨hmap, hlen⟩
  exact pushRing_inv b.ring b.ringCap ⟨topic, payload, b.counter, b.clock⟩
    b.counter hmap hlen rfl

theorem ringInv_publishAll (msgs : List (String × String)) :
    ∀ b : BusState, RingInv b → RingInv (publishAll b msgs) := by
  induction msgs with
  | nil => intro b h; exact h
  | cons m rest ih =>
    intro b h
    exact ih (publish b m.1 m.2).1 (ringInv_publish b m.1 m.2 h)

theorem ring_pairwise (b : BusState) (h : RingInv b) :
    List.Pairwise (fun e1 e2 => e1.sequence < e2.sequence) b.ring := by
  have hp := List.pairwise_lt_range' (b.counter - b.ring.length) b.ring.length
  rw [← h.1] at hp
  exact List.pairwise_map.1 hp

theorem oldestBuffered_eq (b : BusState) (h : RingInv b) :
    oldestBuffered b = b.counter - b.ring.length := by
  rcases h with ⟨hmap, hlen⟩
  cases hr : b.ring with
  | nil =>
    unfold oldestBuffered
    rw [hr]
    simp
  | cons e0 rest =>
    unfold oldestBuffered
    rw [hr]
    show e0.sequence = b.counter - (e0 :: rest).length
    have hmap2 : (e0 :: rest).map (fun x => x.sequence) =
        List.range' (b.counter - (e0 :: rest).length) ((e0 :: rest).length) := by
      rw [← hr]
      exact hmap
    have hL : (e0 :: rest).length = rest.length + 1 := rfl
    rw [hL] at hmap2
    rw [List.range'_succ] at hmap2
    have hhead : e0.sequence = b.counter - (rest.length + 1) := by
      have := congrArg List.head? hmap2
      simpa using this
    rw [hL]
    exact hhead

theorem replay_no_dup (b : BusState) (topics : List String) (w : Nat) :
    ∀ e ∈ (replayFrom b topics w).1, w < e.sequence := by
  intro e he
  have h2 := (List.mem_filter.1 he).2
  rw [Bool.and_eq_true] at h2
  exact of_decide_eq_true h2.2

theorem replay_gap_complete (b : BusState) (topics : List String) (w : Nat)
    (h : RingInv b) (hflag : (replayFrom b topics w).2 = false) :
    ∀ n : Nat, w < n → n < b.counter →
      ∃ e ∈ b.ring, e.sequence = n ∧
        (topicMatches topics e.topic = true →
          e ∈ (replayFrom b topics w).1) := by
  intro n hw hc
  have hfl : ¬ (w + 1 < oldestBuffered b) := by
    have h0 : decide (w + 1 < oldestBuffered b) = false := hflag
    simpa using h0
  rw [oldestBuffered_eq b h] at hfl
  rcases h with ⟨hmap, hlen⟩
  have hn : n ∈ b.ring.map (fun x => x.sequence) := by
    rw [hmap, List.mem_range'_1]
    exact ⟨by omega, by omega⟩
  rcases List.mem_map.1 hn with ⟨e, hemem, heseq⟩
  refine ⟨e, hemem, heseq, ?_⟩
  intro hmatch
  refine List.mem_filter.2 ⟨hemem, ?_⟩
  rw [Bool.and_eq_true]
  exact ⟨hmatch, decide_eq_true (by rw [heseq]; exact hw)⟩

/-- C6: sequence numbers assigned by the bus start at the current
counter and advance by one, so over any publish trace they form the
contiguous strictly increasing range starting at the counter and are
never reused; every subscriber queue holds strictly increasing sequence
numbers (a full queue drops its oldest event and raises the gap flag
instead); and replay after reconnect never redelivers a sequence at or
below the client watermark, redelivers in strictly increasing order,
and when the gap indicator is off every sequence between the watermark
and the counter is still present in the ring buffer for redelivery. -/
theorem event_sequence_numbers :
    (∀ (b : BusState) (topic payload : String),
      (publish b topic payload).2.sequence = b.counter ∧
      (publish b topic payload).1.counter = b.counter + 1) ∧
    (∀ (b : BusState) (msgs : List (String × String)),
      assignedSeqs b msgs = List.range' b.counter msgs.length ∧
      List.Pairwise (· < ·) (assignedSeqs b msgs)) ∧
    (∀ (b : BusState) (msgs : List (String × String)),
      SubInv b → SubInv (publishAll b msgs)) ∧
    (∀ (b : BusState) (msgs : List (String × String)),
      RingInv b → RingInv (publishAll b msgs)) ∧
    (∀ (b : BusState) (topics : List String) (w : Nat),
      RingInv b →
      (∀ e ∈ (replayFrom b topics w).1, w < e.sequence) ∧
      List.Pairwise (fun e1 e2 => e1.sequence < e2.sequence)
        (replayFrom b topics w).1 ∧
      ((replayFrom b topics w).2 = false →
        ∀ n : Nat, w < n → n < b.counter →
          ∃ e ∈ b.ring, e.sequence = n ∧
            (topicMatches topics e.topic = true →
              e ∈ (replayFrom b topics w).1))) := by
  refine ⟨fun b t p => ⟨rfl, rfl⟩, ?_, ?_, ?_, ?_⟩
  · intro b msgs
    refine ⟨assignedSeqs_eq_range msgs b, ?_⟩
    rw [assignedSeqs_eq_range msgs b]
    exact List.pairwise_lt_range' _ _
  · intro b msgs h
    exact subInv_publishAll msgs b h
  · intro b msgs h
    exact ringInv_publishAll msgs b h
  · intro b topics w h
    exact ⟨replay_no_dup b topics w,
      List.Pairwise.filter _ (ring_pairwise b h),
      replay_gap_complete b topics w h⟩

theorem event_sequence_numbers_witness :
    SubInv (publishAll busW
      [("task.completed", "x"), ("task.failed", "y"), ("task.created", "z")]) ∧
    RingInv (publishAll busW
      [("task.completed", "x"), ("task.failed", "y"), ("task.created", "z")]) :=
  ⟨event_sequence_numbers.2.2.1 busW
     [("task.completed", "x"), ("task.failed", "y"), ("task.created", "z")]
     (by intro s hs; fin_cases hs; exact ⟨List.Pairwise.nil, by simp⟩),
   event_sequence_numbers.2.2.2.1 busW
     [("task.completed", "x"), ("task.failed", "y"), ("task.created", "z")]
     ⟨rfl, by decide⟩⟩

end VoiceAutomation
